import Mathlib

/-!
Shallow embedding of `src/utils/pytorch_utils.py` (the mister_ed pytorch
utility module). Numeric values are modelled over `ℚ` (an idealisation of
the floating-point arithmetic of the source); tensors are modelled as a
row-major flat list of rationals together with a shape, matching torch
memory layout; Python exceptions are modelled with `Except`.
-/

namespace PytorchUtils

/-- A torch tensor: a shape and its row-major flat data.
`hlen` records that the data has exactly `shape.prod` elements,
which every torch tensor satisfies (`tensor.numel()`). -/
structure Tensor where
  shape : List ℕ
  data : List ℚ
  hlen : data.length = shape.prod

instance : DecidableEq Tensor := fun a b =>
  decidable_of_iff (a.shape = b.shape ∧ a.data = b.data)
    (by cases a; cases b; simp [Tensor.mk.injEq])

/-- A dynamically-typed Python value as seen by the type-coercion helpers:
a `torch.autograd.Variable` (wrapping its `.data` tensor), a torch tensor,
a numpy `ndarray`, or any other object (carrying only its class name). -/
inductive Entity where
  | variable (data : Tensor)
  | tensor (t : Tensor)
  | ndarray (a : Tensor)
  | other (name : String)
deriving DecidableEq

/-- The `entity.__class__.__name__` for each modelled runtime class. -/
def Entity.className : Entity → String
  | .variable _ => "Variable"
  | .tensor _ => "FloatTensor"
  | .ndarray _ => "ndarray"
  | .other n => n

/-- The message of the exception raised by the coercion helpers:
`"Can\x27t cast %s to a Variable" % entity.__class__.__name__`. -/
def castErrorMsg (n : String) : String :=
  "Can\x27t cast " ++ n ++ " to a Variable"

/-- The `safe_var(entity)`: a `Variable` is returned as is, a tensor is wrapped
into a `Variable`, anything else raises an exception naming its class. -/
def safe_var : Entity → Except String Entity
  | .variable d => .ok (.variable d)
  | .tensor t => .ok (.variable t)
  | e => .error (castErrorMsg e.className)

/-- The `safe_tensor(entity)`: a `Variable` yields its `.data` tensor, a tensor
is returned as is, a numpy array is converted via `torch.Tensor(entity)`,
anything else raises an exception naming its class. -/
def safe_tensor : Entity → Except String Entity
  | .variable d => .ok (.tensor d)
  | .tensor t => .ok (.tensor t)
  | .ndarray a => .ok (.tensor a)
  | e => .error (castErrorMsg e.className)

/-- State of `AverageMeter`: current value, running average, weighted sum
and count of observations. -/
structure AverageMeter where
  val : ℚ
  avg : ℚ
  sum : ℚ
  count : ℕ
deriving DecidableEq

/-- The `AverageMeter.reset`: zeroes all fields (also the state produced by
`__init__`, which just calls `reset`). -/
def AverageMeter.reset : AverageMeter :=
  { val := 0, avg := 0, sum := 0, count := 0 }

/-- The `AverageMeter.update(val, n)`: records `val` with multiplicity `n`,
updating `sum`, `count` and `avg = sum / count`. -/
def AverageMeter.update (m : AverageMeter) (val : ℚ) (n : ℕ) : AverageMeter :=
  let sum := m.sum + val * (n : ℚ)
  let count := m.count + n
  { val := val, sum := sum, count := count, avg := sum / (count : ℚ) }

/-- Runs a sequence of `update` calls against a meter state. -/
def runUpdates (m : AverageMeter) (l : List (ℚ × ℕ)) : AverageMeter :=
  l.foldl (fun mm p => mm.update p.1 p.2) m

/-- Row-major flat index of a coordinate tuple in a given shape
(the inverse of `np.unravel_index`). -/
def ravel : List ℕ → List ℕ → ℕ
  | c :: cs, _ :: ds => c * ds.prod + ravel cs ds
  | _, _ => 0

/-- The `np.unravel_index(i, shape)`: converts a flat row-major index into a
coordinate tuple, one index per dimension. -/
def unravel_index (i : ℕ) : List ℕ → List ℕ
  | [] => []
  | _ :: ds => i / ds.prod :: unravel_index (i % ds.prod) ds

/-- The `tuple_getter(tensor, idx_tuple)`: accesses a tensor element by a
coordinate tuple (on the flat representation, the element at the
corresponding row-major index). -/
def tuple_getter (t : Tensor) (idx : List ℕ) : ℚ :=
  t.data.getD (ravel idx t.shape) 0

/-- The `flat_tensor.max(0)` index component: torch returns the value and index
of the maximum, with the index of the first maximal value when there are
ties (modelled from the torch documentation; the tensor library is an
external collaborator of this repository). -/
def torchMaxIdx : List ℚ → ℕ
  | [] => 0
  | [_] => 0
  | x :: y :: t =>
    if x < (y :: t).getD (torchMaxIdx (y :: t)) 0 then
      torchMaxIdx (y :: t) + 1
    else 0

/-- The `torch_argmax(tensor)`: flattens the tensor (`view(numel)` on row-major
data is the identity on the flat list), takes the first-maximum flat index,
and unravels it into a coordinate tuple. -/
def torch_argmax (t : Tensor) : List ℕ :=
  unravel_index (torchMaxIdx t.data) t.shape

/-- A batch tensor of shape (N, C, H, W), indexed by in-bounds coordinates. -/
structure Batch where
  bN : ℕ
  bC : ℕ
  bH : ℕ
  bW : ℕ
  data : Fin bN → Fin bC → Fin bH → Fin bW → ℚ

/-- Modelled from the spec: the external `transforms.Normalize` object,
constructed from per-channel mean and std, "equivalent to the same affine
formula but implemented by a library routine that does not participate in
gradient tracking" — per-channel affine normalization
`output = (input - mean[c]) / std[c]` broadcast over batch and spatial
dimensions. -/
structure Normalize where
  mean : List ℚ
  std : List ℚ
deriving DecidableEq

/-- Modelled from the spec: applying the cached `transforms.Normalize`
routine to a batch: each element at (n, c, h, w) becomes
`(batch[n,c,h,w] - mean[c]) / std[c]`. -/
def Normalize.apply (nr : Normalize) (var : Batch) : Batch :=
  { var with data := fun n c h w =>
      (var.data n c h w - nr.mean.getD c.val 0) / nr.std.getD c.val 0 }

/-- The `IdentityNormalize`: `__init__` is `pass`, so there is no state. -/
structure IdentityNormalize where

/-- The `IdentityNormalize.forward(var)`: returns its input unchanged. -/
def IdentityNormalize.forward (_m : IdentityNormalize) {α : Type} (var : α) : α :=
  var

/-- State of `DifferentiableNormalize`: stored per-channel mean and std,
the differentiable-mode flag, and the cached non-differentiable
`transforms.Normalize` object. -/
structure DifferentiableNormalize where
  mean : List ℚ
  std : List ℚ
  differentiable : Bool
  nondiff_normer : Normalize
deriving DecidableEq

/-- The `DifferentiableNormalize.__init__(mean, std)`: stores mean and std,
defaults to differentiable mode, caches `transforms.Normalize(mean, std)`. -/
def DifferentiableNormalize.init (mean std : List ℚ) : DifferentiableNormalize :=
  { mean := mean, std := std, differentiable := true,
    nondiff_normer := { mean := mean, std := std } }

/-- The `DifferentiableNormalize._setter(c, mean, std)`: overwrites the stored
mean when an override is given, then asserts its length equals `c`; then
the same for std; finally rebuilds the cached `transforms.Normalize` when
either override was given.  A failed Python `assert` raises, leaving the
object in its (possibly already mutated) state, which the `Except.error`
carries. -/
def DifferentiableNormalize.setter (s : DifferentiableNormalize) (c : ℕ)
    (mean : Option (List ℚ)) (std : Option (List ℚ)) :
    Except DifferentiableNormalize DifferentiableNormalize :=
  let s1 := match mean with
    | some m => { s with mean := m }
    | none => s
  if s1.mean.length = c then
    let s2 := match std with
      | some sd => { s1 with std := sd }
      | none => s1
    if s2.std.length = c then
      if mean.isSome || std.isSome then
        .ok { s2 with nondiff_normer := { mean := s2.mean, std := s2.std } }
      else
        .ok s2
    else
      .error s2
  else
    .error s1

/-- The `DifferentiableNormalize.forward(var, mean, std)`: reads the channel
count from the batch shape, runs `_setter`, then builds the broadcast
mean/std views of shape (1, C, 1, 1) and returns `(var - mean) / std`.
Returns the post-call state together with the output. -/
def DifferentiableNormalize.forward (s : DifferentiableNormalize) (var : Batch)
    (mean : Option (List ℚ)) (std : Option (List ℚ)) :
    Except DifferentiableNormalize (DifferentiableNormalize × Batch) :=
  match s.setter var.bC mean std with
  | .error s1 => .error s1
  | .ok s1 =>
      .ok (s1, { var with data := fun n c h w =>
        (var.data n c h w - s1.mean.getD c.val 0) / s1.std.getD c.val 0 })

/-- The `DifferentiableNormalize.__call__(var)`: dispatches on the mode flag —
the differentiable path runs `forward` (with no overrides), the
non-differentiable path delegates to the cached `transforms.Normalize`
object (no validation, no state change). -/
def DifferentiableNormalize.call (s : DifferentiableNormalize) (var : Batch) :
    Except DifferentiableNormalize (DifferentiableNormalize × Batch) :=
  if s.differentiable then
    s.forward var none none
  else
    .ok (s, s.nondiff_normer.apply var)

/-- The `DifferentiableNormalize.differentiable_call()`: sets the mode flag. -/
def DifferentiableNormalize.differentiable_call (s : DifferentiableNormalize) :
    DifferentiableNormalize :=
  { s with differentiable := true }

/-- The `DifferentiableNormalize.nondifferentiable_call()`: clears the mode
flag. -/
def DifferentiableNormalize.nondifferentiable_call (s : DifferentiableNormalize) :
    DifferentiableNormalize :=
  { s with differentiable := false }

/-! ## Helper lemmas -/

/-- Updating a batch with a function equal to its own data is the
identity. -/
theorem Batch.withData_self (a : Batch)
    (f : Fin a.bN → Fin a.bC → Fin a.bH → Fin a.bW → ℚ) (h : f = a.data) :
    ({ a with data := f } : Batch) = a := by
  cases a
  cases h
  rfl

/-- Indexing a replicate list in bounds yields the replicated value. -/
theorem replicate_getD_fin {n : ℕ} (x d : ℚ) (c : Fin n) :
    (List.replicate n x).getD c.val d = x := by
  induction n with
  | zero => exact c.elim0
  | succ k ih =>
    cases c using Fin.cases with
    | zero => simp [List.replicate_succ]
    | succ c2 =>
      simp [List.replicate_succ, List.getD_cons_succ]

/-- The `forward` with no overrides leaves the state unchanged and normalizes
with the stored per-channel statistics. -/
theorem forward_noOverride (s : DifferentiableNormalize) (var : Batch)
    (hm : s.mean.length = var.bC) (hs : s.std.length = var.bC) :
    s.forward var none none
      = .ok (s, { var with data := fun n c h w =>
          (var.data n c h w - s.mean.getD c.val 0) / s.std.getD c.val 0 }) := by
  simp [DifferentiableNormalize.forward, DifferentiableNormalize.setter, hm, hs]

/-! ## Theorems for the claims -/

/-- C5: `IdentityNormalize.forward` returns exactly its input, unchanged;
the operation takes no parameters beyond the input, keeps no state (all
`IdentityNormalize` values are equal), and has no failure modes (it is a
total function). -/
theorem identityNormalize_forward_id :
    ∀ (m : IdentityNormalize) {α : Type} (var : α),
      m.forward var = var ∧ ∀ m2 : IdentityNormalize, m = m2 := by
  intro m α var
  refine ⟨rfl, fun m2 => ?_⟩
  cases m
  cases m2
  rfl

/-- C8: `safe_var` returns a `Variable` input unchanged and wraps a tensor;
on any other input (numpy arrays included) it raises an exception whose
message names the class of the offending input.  `safe_tensor` returns a
tensor unchanged, extracts a `Variable`'s underlying data, converts a numpy
array, and raises the class-naming exception on anything else. -/
theorem safe_coercion_spec :
    ∀ (d t a : Tensor) (n : String),
      safe_var (.variable d) = .ok (.variable d) ∧
      safe_var (.tensor t) = .ok (.variable t) ∧
      safe_var (.ndarray a) = .error (castErrorMsg (Entity.ndarray a).className) ∧
      safe_var (.other n) = .error (castErrorMsg (Entity.other n).className) ∧
      safe_tensor (.variable d) = .ok (.tensor d) ∧
      safe_tensor (.tensor t) = .ok (.tensor t) ∧
      safe_tensor (.ndarray a) = .ok (.tensor a) ∧
      safe_tensor (.other n) = .error (castErrorMsg (Entity.other n).className) ∧
      castErrorMsg (Entity.other n).className
        = "Can\x27t cast " ++ n ++ " to a Variable" := by
  intro d t a n
  exact ⟨rfl, rfl, rfl, rfl, rfl, rfl, rfl, rfl, rfl⟩

/-- C6: the mode switches `differentiable_call` and `nondifferentiable_call`
change only the mode flag — mean, std and the cached non-differentiable
transform are untouched — and switching away from the current mode and back
leaves the output of a subsequent `__call__` identical to before. -/
theorem mode_switch_spec :
    ∀ (s : DifferentiableNormalize) (var : Batch),
      s.differentiable_call.mean = s.mean ∧
      s.differentiable_call.std = s.std ∧
      s.differentiable_call.nondiff_normer = s.nondiff_normer ∧
      s.nondifferentiable_call.mean = s.mean ∧
      s.nondifferentiable_call.std = s.std ∧
      s.nondifferentiable_call.nondiff_normer = s.nondiff_normer ∧
      (if s.differentiable then
          s.nondifferentiable_call.differentiable_call
        else
          s.differentiable_call.nondifferentiable_call).call var
        = s.call var := by
  intro s var
  refine ⟨rfl, rfl, rfl, rfl, rfl, rfl, ?_⟩
  obtain ⟨mean, std, diff, nn⟩ := s
  cases diff <;> rfl

/-- C2 (code bug): with stored mean `[0]`, std `[1]` and a batch of channel
count 1, calling `forward` with the wrong-length mean override `[0, 0]`
raises the assertion error, but the error state carries `mean = [0, 0]`:
the stored mean was mutated before the length assertion fired, violating
the atomicity the spec requires. -/
theorem setter_mutates_on_failed_validation :
    (DifferentiableNormalize.init [0] [1]).forward
        { bN := 1, bC := 1, bH := 1, bW := 1, data := fun _ _ _ _ => 0 }
        (some [0, 0]) none
      = .error { mean := [0, 0], std := [1], differentiable := true,
                 nondiff_normer := { mean := [0], std := [1] } } ∧
    (DifferentiableNormalize.init [0] [1]).mean ≠ [0, 0] := by
  exact ⟨rfl, by decide⟩

/-- C3: on the differentiable path (no overrides, stored statistics of
length C), `forward` returns a new batch of the same shape (N, C, H, W)
whose element at (n, c, h, w) is `(batch[n,c,h,w] - mean[c]) / std[c]`,
i.e. the length-C mean and std are broadcast over batch and spatial
dimensions. -/
theorem forward_differentiable_formula (s : DifferentiableNormalize)
    (var : Batch) (hm : s.mean.length = var.bC) (hs : s.std.length = var.bC) :
    s.forward var none none
      = .ok (s, { bN := var.bN, bC := var.bC, bH := var.bH, bW := var.bW,
                  data := fun n c h w =>
                    (var.data n c h w - s.mean.getD c.val 0)
                      / s.std.getD c.val 0 }) :=
  forward_noOverride s var hm hs

/-- Witness for C3 at a concrete state and batch. -/
theorem forward_differentiable_formula_witness :
    (DifferentiableNormalize.init [1] [2]).mean.length
        = (Batch.mk 1 1 1 1 fun _ _ _ _ => 3).bC ∧
    (DifferentiableNormalize.init [1] [2]).std.length
        = (Batch.mk 1 1 1 1 fun _ _ _ _ => 3).bC ∧
    (DifferentiableNormalize.init [1] [2]).forward
        (Batch.mk 1 1 1 1 fun _ _ _ _ => 3) none none
      = .ok (DifferentiableNormalize.init [1] [2],
          { bN := 1, bC := 1, bH := 1, bW := 1,
            data := fun n c h w =>
              ((Batch.mk 1 1 1 1 fun _ _ _ _ => (3:ℚ)).data n c h w
                  - ([(1:ℚ)].getD c.val 0)) / ([(2:ℚ)].getD c.val 0) }) :=
  ⟨rfl, rfl,
    forward_differentiable_formula (DifferentiableNormalize.init [1] [2])
      (Batch.mk 1 1 1 1 fun _ _ _ _ => 3) rfl rfl⟩

/-- C1: with stored mean/std of length C, positive std, and a coherent
cached `transforms.Normalize`, calling in differentiable mode and calling
in non-differentiable mode (which delegates to the cached transform)
produce exactly equal output batches; the two paths differ only in
gradient propagation, which the value-level model does not observe. -/
theorem call_mode_equivalence (s : DifferentiableNormalize) (var : Batch)
    (hm : s.mean.length = var.bC) (hs : s.std.length = var.bC)
    (_hpos : ∀ x ∈ s.std, 0 < x)
    (hcache : s.nondiff_normer = { mean := s.mean, std := s.std }) :
    (s.differentiable_call.call var).map Prod.snd
      = (s.nondifferentiable_call.call var).map Prod.snd := by
  have h1 : s.differentiable_call.call var
      = s.differentiable_call.forward var none none := rfl
  rw [h1, forward_noOverride s.differentiable_call var hm hs]
  simp [DifferentiableNormalize.call, DifferentiableNormalize.differentiable_call,
    DifferentiableNormalize.nondifferentiable_call, hcache, Normalize.apply,
    Except.map]

/-- Witness for C1 at a concrete state and batch. -/
theorem call_mode_equivalence_witness :
    (DifferentiableNormalize.init [1, 2] [1, 1]).mean.length
        = (Batch.mk 1 2 1 1 fun _ _ _ _ => 5).bC ∧
    (∀ x ∈ (DifferentiableNormalize.init [1, 2] [1, 1]).std, 0 < x) ∧
    ((DifferentiableNormalize.init [1, 2] [1, 1]).differentiable_call.call
          (Batch.mk 1 2 1 1 fun _ _ _ _ => 5)).map Prod.snd
      = ((DifferentiableNormalize.init [1, 2] [1, 1]).nondifferentiable_call.call
          (Batch.mk 1 2 1 1 fun _ _ _ _ => 5)).map Prod.snd :=
  ⟨rfl, by decide,
    call_mode_equivalence (DifferentiableNormalize.init [1, 2] [1, 1])
      (Batch.mk 1 2 1 1 fun _ _ _ _ => 5) rfl rfl (by decide) rfl⟩

/-- C4: supplying only a mean override of the correct length updates the
stored mean and rebuilds the cache with the old std, leaving the stored std
unchanged; a subsequent call without overrides uses the new mean together
with the previously stored std.  Symmetrically for supplying only std. -/
theorem partial_override_spec (s : DifferentiableNormalize) (var var2 : Batch)
    (m2 sd2 : List ℚ)
    (hm : s.mean.length = var.bC) (hs : s.std.length = var.bC)
    (hm2 : m2.length = var.bC) (hsd2 : sd2.length = var.bC)
    (h2 : var2.bC = var.bC) :
    (s.forward var (some m2) none
      = .ok ({ s with
               mean := m2,
               nondiff_normer := { mean := m2, std := s.std } },
          { var with data := fun n c h w =>
              (var.data n c h w - m2.getD c.val 0) / s.std.getD c.val 0 })) ∧
    (({ s with
        mean := m2,
        nondiff_normer := { mean := m2, std := s.std } }
          : DifferentiableNormalize).forward var2 none none
      = .ok ({ s with
               mean := m2,
               nondiff_normer := { mean := m2, std := s.std } },
          { var2 with data := fun n c h w =>
              (var2.data n c h w - m2.getD c.val 0) / s.std.getD c.val 0 })) ∧
    (s.forward var none (some sd2)
      = .ok ({ s with
               std := sd2,
               nondiff_normer := { mean := s.mean, std := sd2 } },
          { var with data := fun n c h w =>
              (var.data n c h w - s.mean.getD c.val 0)
                / sd2.getD c.val 0 })) ∧
    (({ s with
        std := sd2,
        nondiff_normer := { mean := s.mean, std := sd2 } }
          : DifferentiableNormalize).forward var2 none none
      = .ok ({ s with
               std := sd2,
               nondiff_normer := { mean := s.mean, std := sd2 } },
          { var2 with data := fun n c h w =>
              (var2.data n c h w - s.mean.getD c.val 0)
                / sd2.getD c.val 0 })) := by
  refine ⟨?_, ?_, ?_, ?_⟩
  · simp [DifferentiableNormalize.forward, DifferentiableNormalize.setter,
      hm, hs, hm2]
  · exact forward_noOverride _ var2 (by simp [hm2, h2]) (by simp [hs, h2])
  · simp [DifferentiableNormalize.forward, DifferentiableNormalize.setter,
      hm, hs, hsd2]
  · exact forward_noOverride _ var2 (by simp [hm, h2]) (by simp [hsd2, h2])

/-- Witness for C4 at a concrete state, batches and overrides. -/
theorem partial_override_spec_witness :
    (DifferentiableNormalize.init [1] [2]).std.length
        = (Batch.mk 1 1 1 1 fun _ _ _ _ => 4).bC ∧
    ((DifferentiableNormalize.init [1] [2]).forward
        (Batch.mk 1 1 1 1 fun _ _ _ _ => 4) (some [3]) none
      = .ok ({ (DifferentiableNormalize.init [1] [2]) with
               mean := [3],
               nondiff_normer := { mean := [3],
                                   std := (DifferentiableNormalize.init
                                     [1] [2]).std } },
          { (Batch.mk 1 1 1 1 fun _ _ _ _ => (4:ℚ)) with
            data := fun n c h w =>
              ((Batch.mk 1 1 1 1 fun _ _ _ _ => (4:ℚ)).data n c h w
                  - [(3:ℚ)].getD c.val 0)
                / (DifferentiableNormalize.init [1] [2]).std.getD c.val 0 })) :=
  ⟨rfl,
    (partial_override_spec (DifferentiableNormalize.init [1] [2])
      (Batch.mk 1 1 1 1 fun _ _ _ _ => 4)
      (Batch.mk 1 1 1 1 fun _ _ _ _ => 4) [3] [5]
      rfl rfl rfl rfl rfl).1⟩

/-- C7: with stored mean the all-zero vector and stored std the all-one
vector (of length C), applying the normalizer — in either mode — returns
the input batch exactly. -/
theorem normalize_zero_mean_unit_std_id :
    ∀ (var : Batch),
      (DifferentiableNormalize.init (List.replicate var.bC 0)
          (List.replicate var.bC 1)).differentiable_call.call var
        = .ok ((DifferentiableNormalize.init (List.replicate var.bC 0)
            (List.replicate var.bC 1)).differentiable_call, var) ∧
      (DifferentiableNormalize.init (List.replicate var.bC 0)
          (List.replicate var.bC 1)).nondifferentiable_call.call var
        = .ok ((DifferentiableNormalize.init (List.replicate var.bC 0)
            (List.replicate var.bC 1)).nondifferentiable_call, var) := by
  intro var
  have hdata : (fun (n : Fin var.bN) (c : Fin var.bC)
        (h : Fin var.bH) (w : Fin var.bW) =>
      (var.data n c h w - (List.replicate var.bC (0:ℚ)).getD c.val 0)
        / (List.replicate var.bC (1:ℚ)).getD c.val 0) = var.data := by
    funext n c h w
    rw [replicate_getD_fin, replicate_getD_fin, sub_zero, div_one]
  have hok : ({ var with data := fun (n : Fin var.bN) (c : Fin var.bC)
        (h : Fin var.bH) (w : Fin var.bW) =>
      (var.data n c h w - (List.replicate var.bC (0:ℚ)).getD c.val 0)
        / (List.replicate var.bC (1:ℚ)).getD c.val 0 } : Batch) = var :=
    Batch.withData_self var _ hdata
  constructor
  · have h1 : (DifferentiableNormalize.init (List.replicate var.bC 0)
          (List.replicate var.bC 1)).differentiable_call.call var
        = (DifferentiableNormalize.init (List.replicate var.bC 0)
            (List.replicate var.bC 1)).differentiable_call.forward
            var none none := rfl
    rw [h1, forward_noOverride _ var
      (by simp [DifferentiableNormalize.init,
        DifferentiableNormalize.differentiable_call])
      (by simp [DifferentiableNormalize.init,
        DifferentiableNormalize.differentiable_call])]
    exact congrArg _ (congrArg _ hok)
  · have h1 : (DifferentiableNormalize.init (List.replicate var.bC 0)
          (List.replicate var.bC 1)).nondifferentiable_call.call var
        = .ok ((DifferentiableNormalize.init (List.replicate var.bC 0)
            (List.replicate var.bC 1)).nondifferentiable_call,
            (Normalize.mk (List.replicate var.bC 0)
              (List.replicate var.bC 1)).apply var) := rfl
    rw [h1]
    exact congrArg _ (congrArg _ hok)

/-! ## AverageMeter helpers -/

/-- One step of `runUpdates`. -/
theorem runUpdates_cons (m : AverageMeter) (p : ℚ × ℕ) (t : List (ℚ × ℕ)) :
    runUpdates m (p :: t) = runUpdates (m.update p.1 p.2) t := rfl

/-- The `count` accumulates the multiplicities. -/
theorem runUpdates_count (l : List (ℚ × ℕ)) :
    ∀ m : AverageMeter, (runUpdates m l).count = m.count + (l.map Prod.snd).sum := by
  induction l with
  | nil => intro m; simp [runUpdates]
  | cons p t ih =>
    intro m
    rw [runUpdates_cons, ih]
    simp [AverageMeter.update]
    omega

/-- The `sum` accumulates the weighted values. -/
theorem runUpdates_sum (l : List (ℚ × ℕ)) :
    ∀ m : AverageMeter,
      (runUpdates m l).sum = m.sum + (l.map fun p => p.1 * (p.2 : ℚ)).sum := by
  induction l with
  | nil => intro m; simp [runUpdates]
  | cons p t ih =>
    intro m
    rw [runUpdates_cons, ih]
    simp [AverageMeter.update]
    ring

/-- The `val` is the last supplied value. -/
theorem runUpdates_val (l : List (ℚ × ℕ)) :
    ∀ (m : AverageMeter) (h : l ≠ []), (runUpdates m l).val = (l.getLast h).1 := by
  induction l with
  | nil => intro m h; exact absurd rfl h
  | cons p t ih =>
    intro m h
    cases t with
    | nil => simp [runUpdates, AverageMeter.update, List.getLast]
    | cons q r =>
      rw [runUpdates_cons, ih (m.update p.1 p.2) (List.cons_ne_nil q r)]
      rfl

/-- The `avg = sum / count` is preserved by any run of updates. -/
theorem runUpdates_avg (l : List (ℚ × ℕ)) :
    ∀ m : AverageMeter, m.avg = m.sum / (m.count : ℚ) →
      (runUpdates m l).avg
        = (runUpdates m l).sum / ((runUpdates m l).count : ℚ) := by
  induction l with
  | nil => intro m h; simpa [runUpdates] using h
  | cons p t ih =>
    intro m _
    rw [runUpdates_cons]
    exact ih (m.update p.1 p.2) rfl

/-! ## Argmax helpers -/

/-- The first-maximum index is in bounds for a non-empty list. -/
theorem torchMaxIdx_lt (l : List ℚ) (h : l ≠ []) : torchMaxIdx l < l.length := by
  induction l with
  | nil => exact absurd rfl h
  | cons x t ih =>
    cases t with
    | nil => simp [torchMaxIdx]
    | cons y r =>
      by_cases hx : x < (y :: r).getD (torchMaxIdx (y :: r)) 0
      · have hlen := ih (List.cons_ne_nil y r)
        simp only [torchMaxIdx, List.length_cons]
        rw [if_pos hx]
        simp only [List.length_cons] at hlen
        omega
      · simp only [torchMaxIdx, List.length_cons]
        rw [if_neg hx]
        omega

/-- The value at the first-maximum index dominates every element. -/
theorem torchMaxIdx_le (l : List ℚ) :
    ∀ j, j < l.length → l.getD j 0 ≤ l.getD (torchMaxIdx l) 0 := by
  induction l with
  | nil => intro j hj; simp at hj
  | cons x t ih =>
    intro j hj
    cases t with
    | nil =>
      have hj0 : j = 0 := Nat.lt_one_iff.mp (by simpa using hj)
      subst hj0
      simp [torchMaxIdx]
    | cons y r =>
      by_cases hx : x < (y :: r).getD (torchMaxIdx (y :: r)) 0
      · simp only [torchMaxIdx]
        rw [if_pos hx]
        cases j with
        | zero =>
          simpa [List.getD_cons_zero, List.getD_cons_succ] using le_of_lt hx
        | succ k =>
          have hk : k < (y :: r).length := by simpa using hj
          simpa [List.getD_cons_succ] using ih k hk
      · simp only [torchMaxIdx]
        rw [if_neg hx]
        cases j with
        | zero => simp
        | succ k =>
          have hk : k < (y :: r).length := by simpa using hj
          have h1 := ih k hk
          have h2 := not_lt.mp hx
          simpa [List.getD_cons_succ, List.getD_cons_zero] using le_trans h1 h2

/-- Every element strictly before the first-maximum index is strictly
below the maximum (so the returned index is the first one attaining it). -/
theorem torchMaxIdx_first (l : List ℚ) :
    ∀ j, j < torchMaxIdx l → l.getD j 0 < l.getD (torchMaxIdx l) 0 := by
  induction l with
  | nil => intro j hj; simp [torchMaxIdx] at hj
  | cons x t ih =>
    intro j hj
    cases t with
    | nil => simp [torchMaxIdx] at hj
    | cons y r =>
      by_cases hx : x < (y :: r).getD (torchMaxIdx (y :: r)) 0
      · simp only [torchMaxIdx] at hj ⊢
        rw [if_pos hx] at hj ⊢
        cases j with
        | zero => simpa [List.getD_cons_zero, List.getD_cons_succ] using hx
        | succ k =>
          have hk : k < torchMaxIdx (y :: r) := by omega
          simpa [List.getD_cons_succ] using ih k hk
      · simp only [torchMaxIdx] at hj
        rw [if_neg hx] at hj
        omega

/-- A flat index below the product of a cons shape forces the tail product
to be positive. -/
theorem prod_pos_of_lt_cons {i d : ℕ} {ds : List ℕ}
    (hi : i < (d :: ds).prod) : 0 < ds.prod := by
  by_contra hc
  push_neg at hc
  have h0 : ds.prod = 0 := Nat.le_zero.mp hc
  rw [List.prod_cons, h0, Nat.mul_zero] at hi
  exact absurd hi (Nat.not_lt_zero i)

/-- Unravelling then ravelling an in-range flat index is the identity. -/
theorem unravel_ravel (ds : List ℕ) :
    ∀ i, i < ds.prod → ravel (unravel_index i ds) ds = i := by
  induction ds with
  | nil =>
    intro i hi
    simp only [List.prod_nil, Nat.lt_one_iff] at hi
    simp [unravel_index, ravel, hi]
  | cons d ds ih =>
    intro i hi
    have hP : 0 < ds.prod := prod_pos_of_lt_cons hi
    simp only [unravel_index, ravel]
    rw [ih (i % ds.prod) (Nat.mod_lt i hP), Nat.mul_comm]
    exact Nat.div_add_mod i ds.prod

/-- Unravelling an in-range flat index yields one coordinate per
dimension, each strictly within its bound. -/
theorem unravel_bounds (ds : List ℕ) :
    ∀ i, i < ds.prod → List.Forall₂ (· < ·) (unravel_index i ds) ds := by
  induction ds with
  | nil => intro i _; simp [unravel_index]
  | cons d ds ih =>
    intro i hi
    have hP : 0 < ds.prod := prod_pos_of_lt_cons hi
    simp only [unravel_index]
    refine List.Forall₂.cons ?_ (ih _ (Nat.mod_lt i hP))
    have hi2 : i < d * ds.prod := by simpa [List.prod_cons] using hi
    exact (Nat.div_lt_iff_lt_mul hP).mpr hi2

/-- C9: after `reset` followed by any sequence of `update(val_i, n_i)` with
each `n_i ≥ 1`, the meter satisfies `count = Σ n_i`,
`sum = Σ val_i * n_i`, `avg = sum / count`, and `val` is the last value
supplied. -/
theorem averageMeter_invariant (l : List (ℚ × ℕ)) (_hn : ∀ p ∈ l, 1 ≤ p.2) :
    (runUpdates AverageMeter.reset l).count = (l.map Prod.snd).sum ∧
    (runUpdates AverageMeter.reset l).sum
      = (l.map fun p => p.1 * (p.2 : ℚ)).sum ∧
    (runUpdates AverageMeter.reset l).avg
      = (runUpdates AverageMeter.reset l).sum
        / ((runUpdates AverageMeter.reset l).count : ℚ) ∧
    ∀ (h : l ≠ []), (runUpdates AverageMeter.reset l).val = (l.getLast h).1 := by
  refine ⟨?_, ?_, ?_, ?_⟩
  · simpa [AverageMeter.reset] using runUpdates_count l AverageMeter.reset
  · simpa [AverageMeter.reset] using runUpdates_sum l AverageMeter.reset
  · exact runUpdates_avg l AverageMeter.reset (by simp [AverageMeter.reset])
  · intro h
    exact runUpdates_val l AverageMeter.reset h

/-- Witness for C9 at a concrete update sequence. -/
theorem averageMeter_invariant_witness :
    (∀ p ∈ [((3:ℚ), 2), ((5:ℚ), 1)], 1 ≤ p.2) ∧
    ((runUpdates AverageMeter.reset [((3:ℚ), 2), ((5:ℚ), 1)]).count
        = ([((3:ℚ), 2), ((5:ℚ), 1)].map Prod.snd).sum ∧
      (runUpdates AverageMeter.reset [((3:ℚ), 2), ((5:ℚ), 1)]).sum
        = ([((3:ℚ), 2), ((5:ℚ), 1)].map fun p => p.1 * (p.2 : ℚ)).sum ∧
      (runUpdates AverageMeter.reset [((3:ℚ), 2), ((5:ℚ), 1)]).avg
        = (runUpdates AverageMeter.reset [((3:ℚ), 2), ((5:ℚ), 1)]).sum
          / ((runUpdates AverageMeter.reset [((3:ℚ), 2), ((5:ℚ), 1)]).count : ℚ) ∧
      ∀ (h : [((3:ℚ), 2), ((5:ℚ), 1)] ≠ []),
        (runUpdates AverageMeter.reset [((3:ℚ), 2), ((5:ℚ), 1)]).val
          = ([((3:ℚ), 2), ((5:ℚ), 1)].getLast h).1) :=
  ⟨by decide, averageMeter_invariant [((3:ℚ), 2), ((5:ℚ), 1)] (by decide)⟩

/-- C10: for a non-empty tensor, `torch_argmax` returns a coordinate tuple
with one in-bounds index per dimension, at which the tensor attains its
maximum value, namely the coordinate of the first maximum in row-major
(flattened) order. -/
theorem torch_argmax_spec (t : Tensor) (h : t.data ≠ []) :
    List.Forall₂ (· < ·) (torch_argmax t) t.shape ∧
    ravel (torch_argmax t) t.shape = torchMaxIdx t.data ∧
    (∀ j, j < t.data.length →
      t.data.getD j 0 ≤ tuple_getter t (torch_argmax t)) ∧
    (∀ j, j < ravel (torch_argmax t) t.shape →
      t.data.getD j 0 < tuple_getter t (torch_argmax t)) := by
  have hlt : torchMaxIdx t.data < t.data.length := torchMaxIdx_lt t.data h
  have hprod : torchMaxIdx t.data < t.shape.prod := by
    rw [← t.hlen]
    exact hlt
  have hr : ravel (torch_argmax t) t.shape = torchMaxIdx t.data :=
    unravel_ravel t.shape (torchMaxIdx t.data) hprod
  have hg : tuple_getter t (torch_argmax t)
      = t.data.getD (torchMaxIdx t.data) 0 := by
    simp only [tuple_getter]
    rw [hr]
  refine ⟨unravel_bounds t.shape (torchMaxIdx t.data) hprod, hr, ?_, ?_⟩
  · intro j hj
    rw [hg]
    exact torchMaxIdx_le t.data j hj
  · intro j hj
    rw [hr] at hj
    rw [hg]
    exact torchMaxIdx_first t.data j hj

/-- Witness for C10 at a concrete 2x2 tensor. -/
theorem torch_argmax_spec_witness :
    ((Tensor.mk [2, 2] [1, 5, 5, 2] (by decide)).data ≠ []) ∧
    (List.Forall₂ (· < ·)
        (torch_argmax (Tensor.mk [2, 2] [1, 5, 5, 2] (by decide)))
        (Tensor.mk [2, 2] [1, 5, 5, 2] (by decide)).shape ∧
      ravel (torch_argmax (Tensor.mk [2, 2] [1, 5, 5, 2] (by decide)))
          (Tensor.mk [2, 2] [1, 5, 5, 2] (by decide)).shape
        = torchMaxIdx (Tensor.mk [2, 2] [1, 5, 5, 2] (by decide)).data ∧
      (∀ j, j < (Tensor.mk [2, 2] [1, 5, 5, 2] (by decide)).data.length →
        (Tensor.mk [2, 2] [1, 5, 5, 2] (by decide)).data.getD j 0
          ≤ tuple_getter (Tensor.mk [2, 2] [1, 5, 5, 2] (by decide))
              (torch_argmax (Tensor.mk [2, 2] [1, 5, 5, 2] (by decide)))) ∧
      (∀ j, j < ravel (torch_argmax (Tensor.mk [2, 2] [1, 5, 5, 2] (by decide)))
          (Tensor.mk [2, 2] [1, 5, 5, 2] (by decide)).shape →
        (Tensor.mk [2, 2] [1, 5, 5, 2] (by decide)).data.getD j 0
          < tuple_getter (Tensor.mk [2, 2] [1, 5, 5, 2] (by decide))
              (torch_argmax (Tensor.mk [2, 2] [1, 5, 5, 2] (by decide))))) :=
  ⟨by decide, torch_argmax_spec (Tensor.mk [2, 2] [1, 5, 5, 2] (by decide))
    (by decide)⟩

end PytorchUtils
